import Mathlib

/-!
Shallow embedding of the VoltWise fleet-charging allocation engine
(`src/models.py` and `src/scheduler.py`).

Conventions of the embedding:
* Python `float` is modelled by `ℚ` (exact rational arithmetic).
* `datetime` values are modelled by `ℚ`, counting seconds; `a - b` then plays
  the role of `(a - b).total_seconds()`, and division by 60 converts to minutes.
* Python `dict[str, T]` is modelled by a lookup function `String → Option T`;
  `insertMap` is `d[k] = v` (later insertions shadow earlier ones, as in Python).
* Python `round(x, n)` (display-only fields of explanation records) is modelled
  by rounding to the nearest multiple of `10 ^ (-n)`; Python's tie-breaking on
  binary floats differs only at exact ties, and no property below depends on it.
* `list.sort(key=..., reverse=True)` is a stable sort by descending key.  It is
  modelled by a stable insertion sort over the same total preorder; a stable
  sort is determined by its preorder, so this computes the same list.
* String interpolation of numbers inside alert messages is abstracted by
  `ratRepr` (the claims only depend on which vehicle an alert names).
-/

namespace VoltWise

/-! ### Data model (src/models.py) -/

structure Vehicle where
  id : String
  battery_kwh : ℚ
  soc : ℚ
  soh : ℚ
  temp_c : ℚ
  state : String
  charger_id : Option String
deriving DecidableEq, Repr

structure Charger where
  id : String
  max_kw : ℚ
  enabled : Bool
  efficiency : ℚ
deriving DecidableEq, Repr

structure RoutePlan where
  id : String
  vehicle_id : String
  start_time : ℚ
  end_time : ℚ
  distance_km : ℚ
  eta_minutes : ℚ
  consumption_kwh : ℚ
  required_soc_min : ℚ
deriving DecidableEq, Repr

structure EnergyPricePoint where
  ts : ℚ
  eur_per_kwh : ℚ
deriving DecidableEq, Repr

structure SiteConstraints where
  site_max_kw : ℚ
deriving DecidableEq, Repr

/-! ### Scheduler output types (src/scheduler.py) -/

structure ChargingCommand where
  vehicle_id : String
  charger_id : String
  set_kw : ℚ
  reason : String
deriving DecidableEq, Repr

/-- One explanation record of the `explanations` dict.  The source builds these
as open key/value dicts; here they are a closed record whose optional fields
are `none` exactly when the source dict omits the key. -/
structure Explanation where
  status : String
  motivo : String
  vehicle_id : Option String
  charger_id : Option String
  soc_atual : Option ℚ
  soc_min_rota : Option ℚ
  defice_soc : Option ℚ
  bateria_kwh : Option ℚ
  minutos_ate_rota : Option ℚ
  limite_site_kw : Option ℚ
  restante_site_kw : Option ℚ
  limite_carregador_kw : Option ℚ
  route_start_time : Option ℚ
  route_end_time : Option ℚ
  price_now_eur_kwh : Option (Option ℚ)
  best_price_until_route_eur_kwh : Option (Option ℚ)
  price_delay_applied : Option Bool
  need_kwh : Option ℚ
  kw_medio_necessario : Option ℚ
  kw_pedido : Option ℚ
  kw_final : Option ℚ
deriving DecidableEq, Repr

structure PlanResult where
  ts : ℚ
  total_kw : ℚ
  commands : List ChargingCommand
  alerts : List String
  explanations : String → Option Explanation

/-! ### Dict model -/

def insertMap {α : Type} (m : String → Option α) (k : String) (v : α) :
    String → Option α :=
  fun k2 => if k2 = k then some v else m k2

def emptyMap {α : Type} : String → Option α := fun _ => none

/-- `{key(x): x for x in l}` — later entries shadow earlier ones. -/
def dict_of {α : Type} (key : α → String) (l : List α) : String → Option α :=
  l.foldl (fun m x => insertMap m (key x) x) emptyMap

def charger_by_id (chargers : List Charger) : String → Option Charger :=
  dict_of Charger.id chargers

def route_by_vehicle (routes : List RoutePlan) : String → Option RoutePlan :=
  dict_of RoutePlan.vehicle_id routes

/-! ### Pure helpers (src/scheduler.py lines 27-87) -/

def clamp (x lo hi : ℚ) : ℚ := max lo (min hi x)

/-- The fold behind Python's `min(prices, key=…)`: keeps the current best
unless a strictly closer point appears (first minimum wins). -/
def closestPoint (ts : ℚ) : EnergyPricePoint → List EnergyPricePoint → EnergyPricePoint
  | best, [] => best
  | best, p :: ps =>
    closestPoint ts (if |p.ts - ts| < |best.ts - ts| then p else best) ps

def price_at (prices : List EnergyPricePoint) (ts : ℚ) : Option ℚ :=
  match prices with
  | [] => none
  | p :: ps => some (closestPoint ts p ps).eur_per_kwh

def listMin : List ℚ → Option ℚ
  | [] => none
  | x :: xs => some (xs.foldl min x)

def min_price_until (prices : List EnergyPricePoint) (start stop : ℚ) : Option ℚ :=
  match prices with
  | [] => none
  | _ =>
    listMin ((prices.filter
      (fun p => decide (start ≤ p.ts) && decide (p.ts ≤ stop))).map
        EnergyPricePoint.eur_per_kwh)

def should_delay_charging (price_now best_future_price : Option ℚ)
    (minutes_to_start deficit_soc delay_margin urgency_minutes : ℚ) : Bool :=
  if deficit_soc ≤ 0 then false
  else if minutes_to_start ≤ urgency_minutes then false
  else
    match price_now, best_future_price with
    | some pn, some bf => decide (pn > bf * (1 + delay_margin))
    | _, _ => false

def battery_friendly_kw (vehicle : Vehicle) (charger : Charger)
    (requested_kw : ℚ) : ℚ :=
  let kw0 := requested_kw
  let kw1 := if vehicle.soc ≥ 0.80 then kw0 * 0.5 else kw0
  let kw2 := if vehicle.soc ≥ 0.92 then kw1 * 0.3 else kw1
  let kw3 := if vehicle.temp_c ≥ 40 then kw2 * 0.5 else kw2
  clamp kw3 0 charger.max_kw

def compute_urgency (vehicle : Vehicle) (route : RoutePlan) (now : ℚ) : ℚ :=
  let time_to_start := (route.start_time - now) / 60
  let deficit_soc := max 0 (route.required_soc_min - vehicle.soc)
  deficit_soc * 1000 + max 0 (180 - time_to_start)

/-! ### Eligibility filtering (src/scheduler.py lines 107-127) -/

def ignoradoExpl (motivo : String) : Explanation :=
  Explanation.mk "ignorado" motivo none none none none none none none none none
    none none none none none none none none none none

abbrev Triple := Vehicle × Charger × RoutePlan

/-- One iteration of the filtering loop: either record an `ignorado`
explanation or append the eligible triple.  Python's `if not v.charger_id`
is falsy both for `None` and for the empty string. -/
def filter_step (cb : String → Option Charger) (rb : String → Option RoutePlan)
    (st : (String → Option Explanation) × List Triple) (v : Vehicle) :
    (String → Option Explanation) × List Triple :=
  if v.state ≠ "DISPONIVEL" then
    (insertMap st.1 v.id (ignoradoExpl ("estado=" ++ v.state)), st.2)
  else
    match v.charger_id with
    | none => (insertMap st.1 v.id (ignoradoExpl "não está ligado a carregador"), st.2)
    | some cid =>
      if cid = "" then
        (insertMap st.1 v.id (ignoradoExpl "não está ligado a carregador"), st.2)
      else
        match cb cid with
        | none =>
          (insertMap st.1 v.id
            (ignoradoExpl ("carregador " ++ cid ++ " não existe")), st.2)
        | some ch =>
          if ch.enabled = false then
            (insertMap st.1 v.id
              (ignoradoExpl ("carregador " ++ ch.id ++ " desativado")), st.2)
          else
            match rb v.id with
            | none =>
              (insertMap st.1 v.id (ignoradoExpl "sem rota atribuída"), st.2)
            | some rt => (st.1, st.2 ++ [(v, ch, rt)])

/-! ### Stable descending sort (src/scheduler.py line 129)

`eligible.sort(key=lambda t: compute_urgency(...), reverse=True)` is a stable
sort by descending urgency.  A stable sort is uniquely determined by its total
preorder, so the stable insertion sort below computes the same list. -/

def insertDesc (now : ℚ) (t : Triple) : List Triple → List Triple
  | [] => [t]
  | u :: us =>
    if compute_urgency u.1 u.2.2 now ≤ compute_urgency t.1 t.2.2 now then
      t :: u :: us
    else
      u :: insertDesc now t us

def sort_eligible (now : ℚ) : List Triple → List Triple
  | [] => []
  | t :: ts => insertDesc now t (sort_eligible now ts)

/-! ### Planning loop (src/scheduler.py lines 131-217) -/

structure PlanState where
  remaining_kw : ℚ
  commands : List ChargingCommand
  alerts : List String
  explanations : String → Option Explanation

def round1 (q : ℚ) : ℚ := ((round (q * 10) : ℤ) : ℚ) / 10

def round2 (q : ℚ) : ℚ := ((round (q * 100) : ℤ) : ℚ) / 100

/-- Decimal rendering of the `:.1f`-formatted power in the critical alert;
abstracted, see the header comment. -/
def ratRepr (q : ℚ) : String := toString (round1 q).num ++ "/" ++ toString (round1 q).den

def command_reason : String :=
  "Urgência/rota + limites do site + proteção da bateria + custo energia"

def overdue_alert (id : String) : String :=
  "⚠️ Veículo " ++ id ++ ": rota já devia ter começado."

def critical_alert (id : String) (kw : ℚ) : String :=
  "🚨 Veículo " ++ id ++ " crítico: rota em <60min, a carregar a " ++ ratRepr kw ++ " kW."

/-- The `base_expl` dict (lines 143-159) merged with the status-specific
fields that the various branches add. -/
def base_expl (v : Vehicle) (ch : Charger) (rt : RoutePlan) (site : SiteConstraints)
    (deficit_soc minutes_to_start remaining_kw : ℚ)
    (price_now best_price : Option ℚ) (delay_applied : Bool)
    (status motivo : String)
    (needKwh kwMedio kwPedido kwFinal : Option ℚ) : Explanation :=
  Explanation.mk status motivo (some v.id) (some ch.id) (some v.soc)
    (some rt.required_soc_min) (some deficit_soc) (some v.battery_kwh)
    (some (round1 minutes_to_start)) (some site.site_max_kw)
    (some (round2 remaining_kw)) (some ch.max_kw) (some rt.start_time)
    (some rt.end_time) (some price_now) (some best_price) (some delay_applied)
    needKwh kwMedio kwPedido kwFinal

/-- Power sizing for one vehicle (lines 171-181): deadline-driven average
power, capped by the charger and the remaining site budget, then forced to
zero when the price-deferral decision fires. -/
def plan_requested_kw (now : ℚ) (prices : List EnergyPricePoint)
    (remaining_kw : ℚ) (v : Vehicle) (ch : Charger) (rt : RoutePlan) : ℚ :=
  let deficit_soc := max 0 (rt.required_soc_min - v.soc)
  let minutes_to_start := (rt.start_time - now) / 60
  let need_kwh := deficit_soc * v.battery_kwh
  let hours := minutes_to_start / 60
  let avg_kw_needed := need_kwh / max hours (1 / 1000000)
  let requested0 := min (min avg_kw_needed ch.max_kw) remaining_kw
  let requested1 := clamp requested0 0 ch.max_kw
  if should_delay_charging (price_at prices now)
      (min_price_until prices now rt.start_time) minutes_to_start deficit_soc
      0.15 60 then 0
  else requested1

def plan_final_kw (now : ℚ) (prices : List EnergyPricePoint)
    (remaining_kw : ℚ) (v : Vehicle) (ch : Charger) (rt : RoutePlan) : ℚ :=
  battery_friendly_kw v ch (plan_requested_kw now prices remaining_kw v ch rt)

/-- One iteration of the planning loop (lines 134-217).  The returned `Bool`
is the `break` flag: it is set only on the command branch, when the budget
drops to `≤ 0.01`. -/
def plan_visit (now : ℚ) (prices : List EnergyPricePoint) (site : SiteConstraints)
    (st : PlanState) (t : Triple) : PlanState × Bool :=
  let v := t.1
  let ch := t.2.1
  let rt := t.2.2
  let deficit_soc := max 0 (rt.required_soc_min - v.soc)
  let minutes_to_start := (rt.start_time - now) / 60
  let price_now := price_at prices now
  let best_price := min_price_until prices now rt.start_time
  let delay_applied := should_delay_charging price_now best_price
    minutes_to_start deficit_soc 0.15 60
  let mkExpl := base_expl v ch rt site deficit_soc minutes_to_start
    st.remaining_kw price_now best_price delay_applied
  if deficit_soc ≤ 0 then
    (PlanState.mk st.remaining_kw st.commands st.alerts
      (insertMap st.explanations v.id
        (mkExpl "ok" "já tem SoC suficiente para a rota" none none none none)),
     false)
  else if minutes_to_start ≤ 0 then
    (PlanState.mk st.remaining_kw st.commands
      (st.alerts ++ [overdue_alert v.id])
      (insertMap st.explanations v.id
        (mkExpl "erro" "rota já devia ter começado" none none none none)),
     false)
  else
    let deficit2 := deficit_soc
    let need_kwh := deficit2 * v.battery_kwh
    let hours := minutes_to_start / 60
    let avg_kw_needed := need_kwh / max hours (1 / 1000000)
    let requested_kw := plan_requested_kw now prices st.remaining_kw v ch rt
    let final_kw := plan_final_kw now prices st.remaining_kw v ch rt
    let explanations2 := insertMap st.explanations v.id
      (mkExpl (if final_kw > 0.01 then "planeado" else "não_planeado")
        ("Potência escolhida para cumprir SoC mínimo e minimizar custo " ++
         "(adiando quando está caro), respeitando limites e proteção de bateria.")
        (some (round2 need_kwh)) (some (round2 avg_kw_needed))
        (some (round2 requested_kw)) (some (round2 final_kw)))
    if final_kw ≤ 0.01 then
      (PlanState.mk st.remaining_kw st.commands st.alerts explanations2, false)
    else
      let remaining2 := st.remaining_kw - final_kw
      let commands2 := st.commands ++
        [ChargingCommand.mk v.id ch.id final_kw command_reason]
      let alerts2 :=
        if v.soc < rt.required_soc_min ∧ minutes_to_start < 60 then
          st.alerts ++ [critical_alert v.id final_kw]
        else st.alerts
      (PlanState.mk remaining2 commands2 alerts2 explanations2,
       decide (remaining2 ≤ 0.01))

def plan_loop (now : ℚ) (prices : List EnergyPricePoint) (site : SiteConstraints) :
    PlanState → List Triple → PlanState
  | st, [] => st
  | st, t :: ts =>
    let r := plan_visit now prices site st t
    if r.2 then r.1 else plan_loop now prices site r.1 ts

def make_plan (now : ℚ) (vehicles : List Vehicle) (chargers : List Charger)
    (routes : List RoutePlan) (prices : List EnergyPricePoint)
    (site : SiteConstraints) : PlanResult :=
  let cb := charger_by_id chargers
  let rb := route_by_vehicle routes
  let fs := vehicles.foldl (filter_step cb rb) (emptyMap, [])
  let sorted := sort_eligible now fs.2
  let final := plan_loop now prices site
    (PlanState.mk site.site_max_kw [] [] fs.1) sorted
  PlanResult.mk now (site.site_max_kw - final.remaining_kw) final.commands
    final.alerts final.explanations

/-- The sort key of the allocation ordering, as a function of a whole
eligible triple. -/
def urgency_key (now : ℚ) (t : Triple) : ℚ := compute_urgency t.1 t.2.2 now

/-! ### Spec-side definitions for refinement comparison -/

/-- The curtailment factor exactly as §4.5 step 6 of the spec words it: the
three factors compound multiplicatively. -/
def spec_curtailment_factor (v : Vehicle) : ℚ :=
  (if v.soc ≥ 0.80 then 0.5 else 1) * (if v.soc ≥ 0.92 then 0.3 else 1) *
    (if v.temp_c ≥ 40 then 0.5 else 1)

/-! ### Concrete snapshots used by witnesses and counterexamples -/

/-- §8 scenario vehicle: soc 0.3, 100 kWh, cool, available, on charger c1. -/
def demoVehicle : Vehicle := Vehicle.mk "v1" 100 0.3 1 20 "DISPONIVEL" (some "c1")

def demoCharger : Charger := Charger.mk "c1" 50 true 0.92

/-- §8 scenario route: starts at t = 7200 s (120 minutes), needs soc 0.8. -/
def demoRoute : RoutePlan := RoutePlan.mk "r1" "v1" 7200 10800 10 60 10 0.8

/-- High-urgency vehicle that drains a 10 kW site budget by itself. -/
def vehA : Vehicle := Vehicle.mk "vA" 100 0 1 20 "DISPONIVEL" (some "c1")

/-- Lower-urgency eligible vehicle sorted after `vehA`. -/
def vehB : Vehicle := Vehicle.mk "vB" 100 0.4 1 20 "DISPONIVEL" (some "c2")

def chgA : Charger := Charger.mk "c1" 50 true 0.92

def chgB : Charger := Charger.mk "c2" 50 true 0.92

def rtA : RoutePlan := RoutePlan.mk "rA" "vA" 7200 10800 10 60 10 0.5

def rtB : RoutePlan := RoutePlan.mk "rB" "vB" 7200 10800 10 60 10 0.5

/-- Route for `vehA` whose start lies 10 minutes in the past. -/
def rtPast : RoutePlan := RoutePlan.mk "rP" "vA" (-600) 3600 10 60 10 0.5

/-- A superseded earlier route entry for `vehA`. -/
def rtOld : RoutePlan := RoutePlan.mk "rOld" "vA" 100 200 5 30 5 0.9

/-! ## Helper lemmas -/

theorem clamp_nonneg (x hi : ℚ) : 0 ≤ clamp x 0 hi := le_max_left 0 _

theorem clamp_le_max (x hi : ℚ) : clamp x 0 hi ≤ max 0 x := by
  unfold clamp
  exact max_le_max le_rfl (min_le_right _ _)

theorem clamp_le_or_eq (x hi : ℚ) : clamp x 0 hi ≤ hi ∨ clamp x 0 hi = 0 := by
  unfold clamp
  rcases le_total (min hi x) 0 with h | h
  · exact Or.inr (max_eq_left h)
  · exact Or.inl (by rw [max_eq_right h]; exact min_le_left _ _)

theorem battery_friendly_nonneg (v : Vehicle) (ch : Charger) (r : ℚ) :
    0 ≤ battery_friendly_kw v ch r := clamp_nonneg _ _

theorem battery_friendly_le (v : Vehicle) (ch : Charger) (r : ℚ) (hr : 0 ≤ r) :
    battery_friendly_kw v ch r ≤ r := by
  unfold battery_friendly_kw
  refine le_trans (clamp_le_max _ _) ?_
  split_ifs <;> rw [max_eq_right (by positivity)] <;> nlinarith

theorem battery_friendly_le_max_kw (v : Vehicle) (ch : Charger) (r : ℚ) :
    battery_friendly_kw v ch r ≤ ch.max_kw ∨ battery_friendly_kw v ch r = 0 := by
  unfold battery_friendly_kw
  exact clamp_le_or_eq _ _

theorem plan_requested_nonneg (now : ℚ) (ps : List EnergyPricePoint) (rem : ℚ)
    (v : Vehicle) (ch : Charger) (rt : RoutePlan) :
    0 ≤ plan_requested_kw now ps rem v ch rt := by
  unfold plan_requested_kw
  dsimp only
  split_ifs
  · exact le_refl 0
  · exact clamp_nonneg _ _

theorem plan_requested_le_rem (now : ℚ) (ps : List EnergyPricePoint) (rem : ℚ)
    (v : Vehicle) (ch : Charger) (rt : RoutePlan) (h : 0 ≤ rem) :
    plan_requested_kw now ps rem v ch rt ≤ rem := by
  unfold plan_requested_kw
  dsimp only
  split_ifs
  · exact h
  · refine le_trans (clamp_le_max _ _) (max_le h ?_)
    exact min_le_right _ _

theorem plan_final_nonneg (now : ℚ) (ps : List EnergyPricePoint) (rem : ℚ)
    (v : Vehicle) (ch : Charger) (rt : RoutePlan) :
    0 ≤ plan_final_kw now ps rem v ch rt := battery_friendly_nonneg _ _ _

theorem plan_final_le_rem (now : ℚ) (ps : List EnergyPricePoint) (rem : ℚ)
    (v : Vehicle) (ch : Charger) (rt : RoutePlan) (h : 0 ≤ rem) :
    plan_final_kw now ps rem v ch rt ≤ rem :=
  le_trans (battery_friendly_le _ _ _ (plan_requested_nonneg _ _ _ _ _ _))
    (plan_requested_le_rem _ _ _ _ _ _ h)

theorem insertMap_self {α : Type} (m : String → Option α) (k : String) (v : α) :
    insertMap m k v k = some v := by simp [insertMap]

theorem insertMap_other {α : Type} (m : String → Option α) (k : String) (v : α)
    (k' : String) (h : k' ≠ k) : insertMap m k v k' = m k' := by
  simp [insertMap, h]

theorem should_delay_none (m d dm um : ℚ) (bf : Option ℚ) :
    should_delay_charging none bf m d dm um = false := by
  unfold should_delay_charging
  split_ifs <;> rfl

/-! ## Per-visit lemmas about the planning loop body -/

theorem plan_visit_budget (now : ℚ) (ps : List EnergyPricePoint)
    (site : SiteConstraints) (st : PlanState) (t : Triple)
    (h : 0 ≤ st.remaining_kw) :
    (((plan_visit now ps site st t).1.commands.map ChargingCommand.set_kw).sum
        + (plan_visit now ps site st t).1.remaining_kw
      = (st.commands.map ChargingCommand.set_kw).sum + st.remaining_kw)
    ∧ 0 ≤ (plan_visit now ps site st t).1.remaining_kw := by
  unfold plan_visit
  dsimp only
  split_ifs <;> refine ⟨?_, ?_⟩ <;>
    simp only [List.map_append, List.map_cons, List.map_nil, List.sum_append,
      List.sum_cons, List.sum_nil] <;>
    first
      | rfl
      | exact h
      | linarith [plan_final_le_rem now ps st.remaining_kw t.1 t.2.1 t.2.2 h]

theorem plan_visit_expl_mono (now : ℚ) (ps : List EnergyPricePoint)
    (site : SiteConstraints) (st : PlanState) (t : Triple) (k : String)
    (h : st.explanations k ≠ none) :
    (plan_visit now ps site st t).1.explanations k ≠ none := by
  unfold plan_visit
  dsimp only
  split_ifs <;> simp only [insertMap] <;> split_ifs <;> simp_all

theorem plan_visit_expl_self (now : ℚ) (ps : List EnergyPricePoint)
    (site : SiteConstraints) (st : PlanState) (t : Triple) :
    (plan_visit now ps site st t).1.explanations t.1.id ≠ none := by
  unfold plan_visit
  dsimp only
  split_ifs <;> simp [insertMap]

theorem plan_visit_break_le (now : ℚ) (ps : List EnergyPricePoint)
    (site : SiteConstraints) (st : PlanState) (t : Triple)
    (h : (plan_visit now ps site st t).2 = true) :
    (plan_visit now ps site st t).1.remaining_kw ≤ 0.01 := by
  unfold plan_visit at h ⊢
  dsimp only at h ⊢
  split_ifs at h ⊢ <;> simp_all

theorem plan_visit_cmd_mono (now : ℚ) (ps : List EnergyPricePoint)
    (site : SiteConstraints) (st : PlanState) (t : Triple)
    (P : ChargingCommand → Prop)
    (h : ∀ c ∈ st.commands, P c)
    (hnew : ∀ kw : ℚ, 0.01 < kw → kw ≤ t.2.1.max_kw →
      P (ChargingCommand.mk t.1.id t.2.1.id kw command_reason)) :
    ∀ c ∈ (plan_visit now ps site st t).1.commands, P c := by
  unfold plan_visit
  dsimp only
  split_ifs with h1 h2 h3 h4 <;> try exact h
  all_goals
    intro c hc
    rcases List.mem_append.1 hc with hc | hc
    · exact h c hc
    · have hbig : (0.01:ℚ) < plan_final_kw now ps st.remaining_kw t.1 t.2.1 t.2.2 := by
        linarith [not_le.1 h3]
      have hle : plan_final_kw now ps st.remaining_kw t.1 t.2.1 t.2.2 ≤ t.2.1.max_kw := by
        rcases battery_friendly_le_max_kw t.1 t.2.1
            (plan_requested_kw now ps st.remaining_kw t.1 t.2.1 t.2.2) with hx | hx
        · exact hx
        · exfalso
          have : plan_final_kw now ps st.remaining_kw t.1 t.2.1 t.2.2 = 0 := hx
          linarith
      simp only [List.mem_singleton] at hc
      subst hc
      exact hnew _ hbig hle

theorem plan_visit_overdue (now : ℚ) (ps : List EnergyPricePoint)
    (site : SiteConstraints) (st : PlanState) (t : Triple)
    (hd : 0 < max 0 (t.2.2.required_soc_min - t.1.soc))
    (hm : (t.2.2.start_time - now) / 60 ≤ 0) :
    (plan_visit now ps site st t).2 = false
    ∧ (plan_visit now ps site st t).1.remaining_kw = st.remaining_kw
    ∧ (plan_visit now ps site st t).1.commands = st.commands
    ∧ (plan_visit now ps site st t).1.alerts = st.alerts ++ [overdue_alert t.1.id]
    ∧ ∃ e, (plan_visit now ps site st t).1.explanations t.1.id = some e
        ∧ e.status = "erro" := by
  unfold plan_visit
  dsimp only
  rw [if_neg (by linarith), if_pos hm]
  exact ⟨rfl, rfl, rfl, rfl, _, insertMap_self _ _ _, rfl⟩

theorem plan_visit_no_delay (now : ℚ) (site : SiteConstraints)
    (st : PlanState) (t : Triple)
    (h : ∀ k e, st.explanations k = some e → e.price_delay_applied ≠ some true) :
    ∀ k e, (plan_visit now [] site st t).1.explanations k = some e →
      e.price_delay_applied ≠ some true := by
  have hsd : ∀ bf m d, should_delay_charging (price_at [] now) bf m d 0.15 60 = false := by
    intro bf m d
    exact should_delay_none m d 0.15 60 bf
  unfold plan_visit
  dsimp only
  split_ifs <;> intro k e hk <;> dsimp only at hk
  all_goals by_cases hkk : k = t.1.id
  all_goals first
    | (subst hkk
       rw [insertMap_self] at hk
       injection hk with he
       subst he
       simp [base_expl, hsd])
    | (rw [insertMap_other _ _ _ _ hkk] at hk
       exact h k e hk)

/-! ## Loop-level lemmas -/

theorem plan_loop_budget (now : ℚ) (ps : List EnergyPricePoint)
    (site : SiteConstraints) :
    ∀ (l : List Triple) (st : PlanState), 0 ≤ st.remaining_kw →
      (((plan_loop now ps site st l).commands.map ChargingCommand.set_kw).sum
          + (plan_loop now ps site st l).remaining_kw
        = (st.commands.map ChargingCommand.set_kw).sum + st.remaining_kw)
      ∧ 0 ≤ (plan_loop now ps site st l).remaining_kw
  | [], st, h => ⟨rfl, h⟩
  | t :: ts, st, h => by
    have hv := plan_visit_budget now ps site st t h
    simp only [plan_loop]
    split_ifs with hb
    · exact ⟨hv.1, hv.2⟩
    · have ih := plan_loop_budget now ps site ts (plan_visit now ps site st t).1 hv.2
      exact ⟨by linarith [ih.1, hv.1], ih.2⟩

theorem plan_loop_expl_mono (now : ℚ) (ps : List EnergyPricePoint)
    (site : SiteConstraints) :
    ∀ (l : List Triple) (st : PlanState) (k : String),
      st.explanations k ≠ none →
      (plan_loop now ps site st l).explanations k ≠ none
  | [], st, k, h => h
  | t :: ts, st, k, h => by
    have hv := plan_visit_expl_mono now ps site st t k h
    simp only [plan_loop]
    split_ifs with hb
    · exact hv
    · exact plan_loop_expl_mono now ps site ts (plan_visit now ps site st t).1 k hv

theorem plan_loop_cmd_mono (now : ℚ) (ps : List EnergyPricePoint)
    (site : SiteConstraints) (P : ChargingCommand → Prop) :
    ∀ (l : List Triple) (st : PlanState),
      (∀ c ∈ st.commands, P c) →
      (∀ t ∈ l, ∀ kw : ℚ, 0.01 < kw → kw ≤ t.2.1.max_kw →
        P (ChargingCommand.mk t.1.id t.2.1.id kw command_reason)) →
      ∀ c ∈ (plan_loop now ps site st l).commands, P c
  | [], st, h, _ => h
  | t :: ts, st, h, hl => by
    have hv := plan_visit_cmd_mono now ps site st t P h
      (hl t (List.mem_cons_self t ts))
    simp only [plan_loop]
    split_ifs with hb
    · exact hv
    · exact plan_loop_cmd_mono now ps site P ts (plan_visit now ps site st t).1 hv
        (fun u hu => hl u (List.mem_cons_of_mem t hu))

theorem plan_loop_coverage (now : ℚ) (ps : List EnergyPricePoint)
    (site : SiteConstraints) :
    ∀ (l : List Triple) (st : PlanState),
      0.01 < (plan_loop now ps site st l).remaining_kw →
      ∀ t ∈ l, (plan_loop now ps site st l).explanations t.1.id ≠ none
  | [], _, _, t, ht => absurd ht (List.not_mem_nil t)
  | t :: ts, st, h, u, hu => by
    simp only [plan_loop] at h ⊢
    split_ifs at h ⊢ with hb
    · exfalso
      have := plan_visit_break_le now ps site st t hb
      linarith
    · rcases List.mem_cons.1 hu with rfl | hu
      · exact plan_loop_expl_mono now ps site ts (plan_visit now ps site st u).1 u.1.id
          (plan_visit_expl_self now ps site st u)
      · exact plan_loop_coverage now ps site ts (plan_visit now ps site st t).1 h u hu

theorem plan_loop_no_delay (now : ℚ) (site : SiteConstraints) :
    ∀ (l : List Triple) (st : PlanState),
      (∀ k e, st.explanations k = some e → e.price_delay_applied ≠ some true) →
      ∀ k e, (plan_loop now [] site st l).explanations k = some e →
        e.price_delay_applied ≠ some true
  | [], st, h => h
  | t :: ts, st, h => by
    have hv := plan_visit_no_delay now site st t h
    simp only [plan_loop]
    split_ifs with hb
    · exact hv
    · exact plan_loop_no_delay now site ts (plan_visit now [] site st t).1 hv

/-! ## Dict, filter and sort lemmas -/

theorem find_append_some {α : Type} {p : α → Bool} {xs ys : List α} {x : α}
    (h : xs.find? p = some x) : (xs ++ ys).find? p = some x := by
  induction xs with
  | nil => simp at h
  | cons a xs ih =>
    rcases hp : p a with _ | _
    · rw [List.find?_cons_of_neg _ (by simp [hp])] at h
      rw [List.cons_append, List.find?_cons_of_neg _ (by simp [hp])]
      exact ih h
    · rw [List.find?_cons_of_pos _ hp] at h
      rw [List.cons_append, List.find?_cons_of_pos _ hp]
      exact h

theorem find_append_none {α : Type} {p : α → Bool} {xs ys : List α}
    (h : xs.find? p = none) : (xs ++ ys).find? p = ys.find? p := by
  induction xs with
  | nil => rfl
  | cons a xs ih =>
    rcases hp : p a with _ | _
    · rw [List.find?_cons_of_neg _ (by simp [hp])] at h
      rw [List.cons_append, List.find?_cons_of_neg _ (by simp [hp])]
      exact ih h
    · rw [List.find?_cons_of_pos _ hp] at h
      exact absurd h (by simp)

theorem dict_of_key {α : Type} (key : α → String) (l : List α) :
    ∀ (m : String → Option α), (∀ k x, m k = some x → key x = k) →
      ∀ k x, (l.foldl (fun m x => insertMap m (key x) x) m) k = some x → key x = k := by
  induction l with
  | nil => exact fun m hm => hm
  | cons a l ih =>
    intro m hm
    simp only [List.foldl_cons]
    refine ih (insertMap m (key a) a) ?_
    intro k x hk
    by_cases hka : k = key a
    · subst hka
      rw [insertMap_self] at hk
      injection hk with he
      subst he
      rfl
    · rw [insertMap_other _ _ _ _ hka] at hk
      exact hm k x hk

theorem dict_of_lookup_key {α : Type} (key : α → String) (l : List α)
    (k : String) (x : α) (h : dict_of key l k = some x) : key x = k :=
  dict_of_key key l emptyMap (fun _ _ hx => by simp [emptyMap] at hx) k x h

theorem dict_of_foldl_eq_find {α : Type} (key : α → String) (l : List α) :
    ∀ (m : String → Option α) (k : String),
      (l.foldl (fun m x => insertMap m (key x) x) m) k =
        match l.reverse.find? (fun x => key x == k) with
        | some x => some x
        | none => m k := by
  induction l with
  | nil => intro m k; rfl
  | cons a l ih =>
    intro m k
    simp only [List.foldl_cons, List.reverse_cons]
    rw [ih]
    rcases hf : l.reverse.find? (fun x => key x == k) with _ | x
    · rw [find_append_none hf]
      rcases hka : (key a == k : Bool) with _ | _
      · rw [List.find?_cons_of_neg _ (by simp_all), List.find?_nil]
        rw [insertMap_other]
        intro hkk
        subst hkk
        simp at hka
      · have hk2 : key a = k := by simpa using hka
        subst hk2
        simp [List.find?, insertMap]
    · rw [find_append_some hf]

theorem dict_of_eq_find_last {α : Type} (key : α → String) (l : List α) (k : String) :
    dict_of key l k = l.reverse.find? (fun x => key x == k) := by
  unfold dict_of
  rw [dict_of_foldl_eq_find]
  rcases hf : l.reverse.find? (fun x => key x == k) with _ | x <;> simp [emptyMap]

theorem filter_step_cases (cb : String → Option Charger)
    (rb : String → Option RoutePlan)
    (st : (String → Option Explanation) × List Triple) (v : Vehicle) :
    (∃ mo, filter_step cb rb st v = (insertMap st.1 v.id (ignoradoExpl mo), st.2)) ∨
    (∃ ch rt cid, cb cid = some ch ∧
      filter_step cb rb st v = (st.1, st.2 ++ [(v, ch, rt)])) := by
  unfold filter_step
  split_ifs with h1
  · exact Or.inl ⟨_, rfl⟩
  · rcases hx : v.charger_id with _ | cid <;> simp only [hx]
    · exact Or.inl ⟨_, rfl⟩
    · split_ifs with h2
      · exact Or.inl ⟨_, rfl⟩
      · rcases hc : cb cid with _ | ch <;> simp only [hc]
        · exact Or.inl ⟨_, rfl⟩
        · split_ifs with h3
          · exact Or.inl ⟨_, rfl⟩
          · rcases hr : rb v.id with _ | rt <;> simp only [hr]
            · exact Or.inl ⟨_, rfl⟩
            · exact Or.inr ⟨ch, rt, cid, hc, rfl⟩

theorem mem_insertDesc (now : ℚ) (t : Triple) :
    ∀ (l : List Triple) (u : Triple), u ∈ insertDesc now t l ↔ u = t ∨ u ∈ l
  | [], u => by simp [insertDesc]
  | a :: l, u => by
    unfold insertDesc
    split_ifs
    · simp
    · rw [List.mem_cons, mem_insertDesc now t l u, List.mem_cons]
      tauto

theorem insertDesc_perm (now : ℚ) (t : Triple) :
    ∀ (l : List Triple), List.Perm (insertDesc now t l) (t :: l)
  | [] => List.Perm.refl _
  | a :: l => by
    unfold insertDesc
    split_ifs
    · exact List.Perm.refl _
    · exact ((insertDesc_perm now t l).cons a).trans (List.Perm.swap t a l)

theorem sort_eligible_perm (now : ℚ) :
    ∀ (l : List Triple), List.Perm (sort_eligible now l) l
  | [] => List.Perm.refl _
  | t :: l => by
    unfold sort_eligible
    exact (insertDesc_perm now t _).trans ((sort_eligible_perm now l).cons t)

theorem insertDesc_sorted (now : ℚ) (t : Triple) :
    ∀ (l : List Triple),
      l.Pairwise (fun a b => urgency_key now b ≤ urgency_key now a) →
      (insertDesc now t l).Pairwise (fun a b => urgency_key now b ≤ urgency_key now a)
  | [], _ => by simp [insertDesc]
  | a :: l, h => by
    unfold insertDesc
    rcases List.pairwise_cons.1 h with ⟨ha, hl⟩
    split_ifs with hle
    · refine List.pairwise_cons.2 ⟨?_, h⟩
      intro b hb
      rcases List.mem_cons.1 hb with rfl | hb
      · exact hle
      · exact le_trans (ha b hb) hle
    · refine List.pairwise_cons.2 ⟨?_, insertDesc_sorted now t l hl⟩
      intro b hb
      rcases (mem_insertDesc now t l b).1 hb with rfl | hb
      · exact le_of_lt (lt_of_not_le hle)
      · exact ha b hb

theorem sort_eligible_sorted (now : ℚ) :
    ∀ (l : List Triple),
      (sort_eligible now l).Pairwise (fun a b => urgency_key now b ≤ urgency_key now a)
  | [] => List.Pairwise.nil
  | t :: l => insertDesc_sorted now t _ (sort_eligible_sorted now l)

theorem sublist_insertDesc (now : ℚ) (t : Triple) :
    ∀ (l : List Triple), List.Sublist l (insertDesc now t l)
  | [] => List.nil_sublist _
  | a :: l => by
    unfold insertDesc
    split_ifs
    · exact List.sublist_cons_self t (a :: l)
    · exact List.Sublist.cons₂ a (sublist_insertDesc now t l)

theorem pair_sublist_insertDesc (now : ℚ) (a b : Triple)
    (h : urgency_key now b ≤ urgency_key now a) :
    ∀ (l : List Triple), b ∈ l → List.Sublist [a, b] (insertDesc now a l)
  | [], hb => absurd hb (List.not_mem_nil b)
  | u :: l, hb => by
    unfold insertDesc
    split_ifs with hle
    · exact List.Sublist.cons₂ a (List.singleton_sublist.2 hb)
    · rcases List.mem_cons.1 hb with rfl | hb
      · exact absurd h hle
      · exact List.Sublist.cons u (pair_sublist_insertDesc now a b h l hb)

theorem sort_eligible_stable (now : ℚ) (a b : Triple)
    (hab : urgency_key now b ≤ urgency_key now a) :
    ∀ (l : List Triple), List.Sublist [a, b] l →
      List.Sublist [a, b] (sort_eligible now l)
  | [], h => absurd (List.eq_nil_of_sublist_nil h) (by simp)
  | x :: l, h => by
    unfold sort_eligible
    cases h with
    | cons _ h2 =>
      exact List.Sublist.trans (sort_eligible_stable now a b hab l h2)
        (sublist_insertDesc now x _)
    | cons₂ _ h2 =>
      have hb : b ∈ sort_eligible now l :=
        ((sort_eligible_perm now l).mem_iff).2 (List.singleton_sublist.1 h2)
      exact pair_sublist_insertDesc now a b hab _ hb


/-! ## Filter-fold lemmas -/

theorem filter_fold_expl_mono (cb : String → Option Charger)
    (rb : String → Option RoutePlan) :
    ∀ (l : List Vehicle) (acc : (String → Option Explanation) × List Triple)
      (k : String), acc.1 k ≠ none → (l.foldl (filter_step cb rb) acc).1 k ≠ none
  | [], acc, k, h => h
  | v :: l, acc, k, h => by
    simp only [List.foldl_cons]
    refine filter_fold_expl_mono cb rb l _ k ?_
    rcases filter_step_cases cb rb acc v with ⟨mo, he⟩ | ⟨ch, rt, cid, _, he⟩ <;>
      rw [he] <;> dsimp only
    · by_cases hk : k = v.id
      · subst hk
        rw [insertMap_self]
        simp
      · rw [insertMap_other _ _ _ _ hk]
        exact h
    · exact h

theorem filter_fold_elig_mono (cb : String → Option Charger)
    (rb : String → Option RoutePlan) :
    ∀ (l : List Vehicle) (acc : (String → Option Explanation) × List Triple)
      (t : Triple), t ∈ acc.2 → t ∈ (l.foldl (filter_step cb rb) acc).2
  | [], acc, t, h => h
  | v :: l, acc, t, h => by
    simp only [List.foldl_cons]
    refine filter_fold_elig_mono cb rb l _ t ?_
    rcases filter_step_cases cb rb acc v with ⟨mo, he⟩ | ⟨ch, rt, cid, _, he⟩ <;>
      rw [he] <;> dsimp only
    · exact h
    · exact List.mem_append_left _ h

theorem filter_fold_covers (cb : String → Option Charger)
    (rb : String → Option RoutePlan) :
    ∀ (l : List Vehicle) (acc : (String → Option Explanation) × List Triple)
      (v : Vehicle), v ∈ l →
      (l.foldl (filter_step cb rb) acc).1 v.id ≠ none
      ∨ ∃ ch rt, (v, ch, rt) ∈ (l.foldl (filter_step cb rb) acc).2
  | [], _, v, hv => absurd hv (List.not_mem_nil v)
  | u :: l, acc, v, hv => by
    simp only [List.foldl_cons]
    rcases List.mem_cons.1 hv with rfl | hv
    · rcases filter_step_cases cb rb acc v with ⟨mo, he⟩ | ⟨ch, rt, cid, _, he⟩
      · refine Or.inl (filter_fold_expl_mono cb rb l _ v.id ?_)
        rw [he]
        dsimp only
        rw [insertMap_self]
        simp
      · refine Or.inr ⟨ch, rt, filter_fold_elig_mono cb rb l _ _ ?_⟩
        rw [he]
        exact List.mem_append_right _ (List.mem_singleton_self _)
    · exact filter_fold_covers cb rb l _ v hv

theorem filter_fold_charger_inv (cb : String → Option Charger)
    (rb : String → Option RoutePlan)
    (hkey : ∀ k c, cb k = some c → c.id = k) :
    ∀ (l : List Vehicle) (acc : (String → Option Explanation) × List Triple),
      (∀ t ∈ acc.2, cb t.2.1.id = some t.2.1) →
      ∀ t ∈ (l.foldl (filter_step cb rb) acc).2, cb t.2.1.id = some t.2.1
  | [], acc, h => h
  | v :: l, acc, h => by
    simp only [List.foldl_cons]
    refine filter_fold_charger_inv cb rb hkey l _ ?_
    rcases filter_step_cases cb rb acc v with ⟨mo, he⟩ | ⟨ch, rt, cid, hc, he⟩ <;>
      rw [he] <;> dsimp only
    · exact h
    · intro t ht
      rcases List.mem_append.1 ht with ht | ht
      · exact h t ht
      · simp only [List.mem_singleton] at ht
        subst ht
        dsimp only
        rw [hkey cid ch hc]
        exact hc

theorem filter_fold_no_delay (cb : String → Option Charger)
    (rb : String → Option RoutePlan) :
    ∀ (l : List Vehicle) (acc : (String → Option Explanation) × List Triple),
      (∀ k e, acc.1 k = some e → e.price_delay_applied ≠ some true) →
      ∀ k e, (l.foldl (filter_step cb rb) acc).1 k = some e →
        e.price_delay_applied ≠ some true
  | [], acc, h => h
  | v :: l, acc, h => by
    simp only [List.foldl_cons]
    refine filter_fold_no_delay cb rb l _ ?_
    rcases filter_step_cases cb rb acc v with ⟨mo, he⟩ | ⟨ch, rt, cid, _, he⟩ <;>
      rw [he] <;> dsimp only
    · intro k e hk
      by_cases hkk : k = v.id
      · subst hkk
        rw [insertMap_self] at hk
        injection hk with hee
        subst hee
        simp [ignoradoExpl]
      · rw [insertMap_other _ _ _ _ hkk] at hk
        exact h k e hk
    · exact h

/-! ## Claim C5 -/

/-- C5: the battery-friendly curtailment equals `clamp (r × f) 0 max_kw`
where `f` multiplies 0.5 for soc ≥ 0.80, a further 0.3 for soc ≥ 0.92, and
0.5 for temperature ≥ 40 °C, compounding multiplicatively. -/
theorem C5_battery_friendly_spec_factor (v : Vehicle) (ch : Charger) (r : ℚ) :
    battery_friendly_kw v ch r = clamp (r * spec_curtailment_factor v) 0 ch.max_kw := by
  unfold battery_friendly_kw spec_curtailment_factor
  split_ifs <;> ring_nf

/-! ## Claim C4 -/

/-- C4: with the default margin 0.15 and urgency 60 minutes,
`should_delay_charging` returns true iff the deficit is positive, more than
60 minutes remain, both prices are present, and the current price exceeds
1.15 times the best future price; in particular it is false whenever
`minutes_to_start ≤ 60` or `deficit ≤ 0`. -/
theorem C4_should_delay_iff (pn bf : Option ℚ) (m d : ℚ) :
    (should_delay_charging pn bf m d 0.15 60 = true ↔
      0 < d ∧ 60 < m ∧ ∃ p b, pn = some p ∧ bf = some b ∧ b * 1.15 < p) ∧
    ((m ≤ 60 ∨ d ≤ 0) → should_delay_charging pn bf m d 0.15 60 = false) := by
  unfold should_delay_charging
  rcases pn with _ | p <;> rcases bf with _ | b <;> split_ifs with h1 h2 <;>
    refine ⟨?_, ?_⟩ <;> simp_all <;> norm_num

/-- Witness for C4 at a concrete input: price 3 now against best future
price 1 with two hours of lead and a real deficit does defer. -/
theorem C4_witness :
    should_delay_charging (some 3) (some 1) 120 (1/2) 0.15 60 = true :=
  (C4_should_delay_iff (some 3) (some 1) 120 (1/2)).1.mpr
    ⟨by norm_num, by norm_num, 3, 1, rfl, rfl, by norm_num⟩

/-! ## Claims C1-C3, C10 (make_plan invariants) and C6-C9 -/

/-- C1 (amended): every vehicle identity in the input appears as a key of the
returned plan's explanation mapping, provided the budget-exhaustion early exit
did not trigger (equivalently, more than 0.01 kW of the site cap is left
uncommitted).  The unamended claim fails: see the counterexample. -/
theorem C1_explanations_complete (now : ℚ) (vehicles : List Vehicle)
    (chargers : List Charger) (routes : List RoutePlan)
    (prices : List EnergyPricePoint) (site : SiteConstraints) (v : Vehicle)
    (hv : v ∈ vehicles)
    (hbudget : 0.01 < site.site_max_kw
      - (make_plan now vehicles chargers routes prices site).total_kw) :
    (make_plan now vehicles chargers routes prices site).explanations v.id ≠ none := by
  unfold make_plan at hbudget ⊢
  dsimp only at hbudget ⊢
  have hb2 : (0.01:ℚ) < (plan_loop now prices site
      (PlanState.mk site.site_max_kw [] []
        (vehicles.foldl (filter_step (charger_by_id chargers) (route_by_vehicle routes))
          (emptyMap, [])).1)
      (sort_eligible now
        (vehicles.foldl (filter_step (charger_by_id chargers) (route_by_vehicle routes))
          (emptyMap, [])).2)).remaining_kw := by
    linarith
  rcases filter_fold_covers (charger_by_id chargers) (route_by_vehicle routes)
      vehicles (emptyMap, []) v hv with hig | ⟨ch, rt, hmem⟩
  · exact plan_loop_expl_mono now prices site _ _ v.id hig
  · have hsorted : (v, ch, rt) ∈ sort_eligible now
        (vehicles.foldl (filter_step (charger_by_id chargers) (route_by_vehicle routes))
          (emptyMap, [])).2 :=
      (sort_eligible_perm now _).mem_iff.2 hmem
    exact plan_loop_coverage now prices site _ _ hb2 (v, ch, rt) hsorted

/-- C2 (amended): for every input snapshot whose site cap is nonnegative, the
sum of `set_kw` over all commands of the plan is at most
`site.site_max_kw + 0.01`.  The unamended claim fails for a negative site cap:
see the counterexample. -/
theorem C2_budget_invariant (now : ℚ) (vehicles : List Vehicle)
    (chargers : List Charger) (routes : List RoutePlan)
    (prices : List EnergyPricePoint) (site : SiteConstraints)
    (h : 0 ≤ site.site_max_kw) :
    (((make_plan now vehicles chargers routes prices site).commands.map
      ChargingCommand.set_kw).sum) ≤ site.site_max_kw + 0.01 := by
  unfold make_plan
  dsimp only
  obtain ⟨heq, hpos⟩ := plan_loop_budget now prices site
    (sort_eligible now
      (vehicles.foldl (filter_step (charger_by_id chargers) (route_by_vehicle routes))
        (emptyMap, [])).2)
    (PlanState.mk site.site_max_kw [] []
      (vehicles.foldl (filter_step (charger_by_id chargers) (route_by_vehicle routes))
        (emptyMap, [])).1)
    h
  simp only [List.map_nil, List.sum_nil] at heq
  linarith

/-- C3: every command of the returned plan references a charger that the
charger dictionary resolves, and its `set_kw` does not exceed that charger's
`max_kw`. -/
theorem C3_per_charger_invariant (now : ℚ) (vehicles : List Vehicle)
    (chargers : List Charger) (routes : List RoutePlan)
    (prices : List EnergyPricePoint) (site : SiteConstraints) :
    ∀ c ∈ (make_plan now vehicles chargers routes prices site).commands,
      ∃ ch, charger_by_id chargers c.charger_id = some ch ∧ c.set_kw ≤ ch.max_kw := by
  unfold make_plan
  dsimp only
  refine plan_loop_cmd_mono now prices site
    (fun c => ∃ ch, charger_by_id chargers c.charger_id = some ch ∧ c.set_kw ≤ ch.max_kw)
    _ _ (by simp) ?_
  intro t ht kw hkw hle
  have htm : t ∈ (vehicles.foldl
      (filter_step (charger_by_id chargers) (route_by_vehicle routes))
      (emptyMap, [])).2 :=
    (sort_eligible_perm now _).mem_iff.1 ht
  have hcb := filter_fold_charger_inv (charger_by_id chargers) (route_by_vehicle routes)
    (fun k c hkc => dict_of_lookup_key Charger.id chargers k c hkc)
    vehicles (emptyMap, []) (by simp) t htm
  exact ⟨t.2.1, hcb, hle⟩

/-- C10: every command of a returned plan has `set_kw` strictly greater than
0.01, and a visited vehicle whose curtailed final power is at most 0.01 kW is
recorded with status "não_planeado" (not planned), with no command emitted and
no budget consumed. -/
theorem C10_no_negligible_commands :
    (∀ (now : ℚ) (vehicles : List Vehicle) (chargers : List Charger)
      (routes : List RoutePlan) (prices : List EnergyPricePoint)
      (site : SiteConstraints),
      ∀ c ∈ (make_plan now vehicles chargers routes prices site).commands,
        (0.01:ℚ) < c.set_kw)
    ∧ (∀ (now : ℚ) (ps : List EnergyPricePoint) (site : SiteConstraints)
        (st : PlanState) (v : Vehicle) (ch : Charger) (rt : RoutePlan),
        ¬ max 0 (rt.required_soc_min - v.soc) ≤ 0 →
        ¬ (rt.start_time - now) / 60 ≤ 0 →
        plan_final_kw now ps st.remaining_kw v ch rt ≤ 0.01 →
        (plan_visit now ps site st (v, ch, rt)).1.commands = st.commands
        ∧ (plan_visit now ps site st (v, ch, rt)).1.remaining_kw = st.remaining_kw
        ∧ ∃ e, (plan_visit now ps site st (v, ch, rt)).1.explanations v.id = some e
            ∧ e.status = "não_planeado") := by
  constructor
  · intro now vehicles chargers routes prices site
    unfold make_plan
    dsimp only
    refine plan_loop_cmd_mono now prices site (fun c => (0.01:ℚ) < c.set_kw)
      _ _ (by simp) ?_
    intro t ht kw hkw _
    exact hkw
  · intro now ps site st v ch rt h1 h2 h3
    unfold plan_visit
    dsimp only
    rw [if_neg h1, if_neg h2, if_pos h3, if_neg (not_lt.2 h3)]
    exact ⟨rfl, rfl, _, insertMap_self _ _ _, rfl⟩



/-- C6: the allocation loop visits eligible triples sorted by descending
urgency; the visited order is a permutation of the eligible list; triples of
equal urgency keep their relative input order (stability); and the urgency is
exactly `max 0 (required_soc_min - soc) * 1000 + max 0 (180 - minutes_to_start)`.
`make_plan` feeds `sort_eligible` applied to the filtered eligible list into
the loop, so this is the loop's visiting order. -/
theorem C6_allocation_order (now : ℚ) (l : List Triple) :
    ((sort_eligible now l).Pairwise
      (fun a b => urgency_key now b ≤ urgency_key now a))
    ∧ List.Perm (sort_eligible now l) l
    ∧ (∀ a b : Triple, urgency_key now a = urgency_key now b →
        List.Sublist [a, b] l → List.Sublist [a, b] (sort_eligible now l))
    ∧ (∀ (v : Vehicle) (rt : RoutePlan), compute_urgency v rt now
        = max 0 (rt.required_soc_min - v.soc) * 1000
          + max 0 (180 - (rt.start_time - now) / 60)) :=
  ⟨sort_eligible_sorted now l, sort_eligible_perm now l,
    fun a b h hs => sort_eligible_stable now a b (le_of_eq h.symm) l hs,
    fun _ _ => rfl⟩

/-- C7: a visited vehicle with a strictly positive deficit whose route start
is now or in the past gets status "erro" (error), exactly one new alert naming
the vehicle, no command, and leaves the site budget untouched. -/
theorem C7_overdue_route (now : ℚ) (ps : List EnergyPricePoint)
    (site : SiteConstraints) (st : PlanState) (v : Vehicle) (ch : Charger)
    (rt : RoutePlan)
    (hd : 0 < max 0 (rt.required_soc_min - v.soc))
    (hm : (rt.start_time - now) / 60 ≤ 0) :
    (plan_visit now ps site st (v, ch, rt)).2 = false
    ∧ (plan_visit now ps site st (v, ch, rt)).1.remaining_kw = st.remaining_kw
    ∧ (plan_visit now ps site st (v, ch, rt)).1.commands = st.commands
    ∧ (plan_visit now ps site st (v, ch, rt)).1.alerts
        = st.alerts ++ [overdue_alert v.id]
    ∧ ∃ e, (plan_visit now ps site st (v, ch, rt)).1.explanations v.id = some e
        ∧ e.status = "erro" :=
  plan_visit_overdue now ps site st (v, ch, rt) hd hm

/-- C8: the engine is total by construction (all embedded functions are total
Lean functions); with an empty price sequence `price_at` and `min_price_until`
return `none`, the deferral decision is false, and the plan produced by
`make_plan` marks no vehicle as price-deferred. -/
theorem C8_empty_prices_safe :
    (∀ ts : ℚ, price_at [] ts = none)
    ∧ (∀ a b : ℚ, min_price_until [] a b = none)
    ∧ (∀ (bf : Option ℚ) (m d dm um : ℚ),
        should_delay_charging none bf m d dm um = false)
    ∧ (∀ (now : ℚ) (vehicles : List Vehicle) (chargers : List Charger)
        (routes : List RoutePlan) (site : SiteConstraints) (k : String)
        (e : Explanation),
        (make_plan now vehicles chargers routes [] site).explanations k = some e →
          e.price_delay_applied ≠ some true) := by
  refine ⟨fun _ => rfl, fun _ _ => rfl,
    fun bf m d dm um => should_delay_none m d dm um bf, ?_⟩
  intro now vehicles chargers routes site k e
  unfold make_plan
  dsimp only
  refine plan_loop_no_delay now site _ _ ?_ k e
  exact filter_fold_no_delay (charger_by_id chargers) (route_by_vehicle routes)
    vehicles (emptyMap, []) (fun k e hke => by simp [emptyMap] at hke)

/-- C9: when several routes share a `vehicle_id`, only the last one in input
order affects the plan (removing a superseded earlier route leaves `make_plan`
unchanged); and both dictionaries resolve an id to the last matching entry in
input order. -/
theorem C9_last_route_wins :
    (∀ (now : ℚ) (vehicles : List Vehicle) (chargers : List Charger)
      (prices : List EnergyPricePoint) (site : SiteConstraints)
      (l1 l2 : List RoutePlan) (r : RoutePlan),
      (∃ r2 ∈ l2, r2.vehicle_id = r.vehicle_id) →
      make_plan now vehicles chargers (l1 ++ r :: l2) prices site
        = make_plan now vehicles chargers (l1 ++ l2) prices site)
    ∧ (∀ (routes : List RoutePlan) (k : String),
        route_by_vehicle routes k
          = routes.reverse.find? (fun r => r.vehicle_id == k))
    ∧ (∀ (chargers : List Charger) (k : String),
        charger_by_id chargers k = chargers.reverse.find? (fun c => c.id == k)) := by
  refine ⟨?_, fun routes k => dict_of_eq_find_last RoutePlan.vehicle_id routes k,
    fun chargers k => dict_of_eq_find_last Charger.id chargers k⟩
  intro now vehicles chargers prices site l1 l2 r hr
  have hmap : route_by_vehicle (l1 ++ r :: l2) = route_by_vehicle (l1 ++ l2) := by
    funext k
    unfold route_by_vehicle
    rw [dict_of_eq_find_last RoutePlan.vehicle_id, dict_of_eq_find_last RoutePlan.vehicle_id]
    rw [List.reverse_append, List.reverse_cons, List.reverse_append]
    rcases hf : l2.reverse.find? (fun x => x.vehicle_id == k) with _ | x
    · rw [List.append_assoc] at *
      rw [find_append_none hf, find_append_none hf]
      rcases hpr : (r.vehicle_id == k : Bool) with _ | _
      · rw [List.cons_append, List.find?_cons_of_neg _ (by simp_all), List.nil_append]
      · exfalso
        rcases hr with ⟨r2, hr2mem, hr2eq⟩
        have : (fun x => x.vehicle_id == k) r2 = true := by
          simp only []
          rw [hr2eq]
          exact hpr
        have hnone := List.find?_eq_none.1 hf r2 (by simpa using hr2mem)
        simp_all
    · rw [List.append_assoc] at *
      rw [find_append_some hf, find_append_some hf]
  unfold make_plan
  rw [hmap]

/-! ## Witnesses and counterexamples -/

/-- C1 counterexample: a concrete snapshot with two eligible vehicles where
the first drains the whole 10 kW site cap; the loop breaks and the second
vehicle "vB", although present in the input, has no explanation entry. -/
theorem C1_counterexample :
    "vB" ∈ [vehA, vehB].map Vehicle.id
    ∧ (make_plan 0 [vehA, vehB] [chgA, chgB] [rtA, rtB] []
        (SiteConstraints.mk 10)).explanations "vB" = none := by
  refine ⟨by simp [vehA, vehB], ?_⟩
  norm_num [make_plan, plan_loop, plan_visit, plan_requested_kw, plan_final_kw,
    battery_friendly_kw, should_delay_charging, price_at, min_price_until, clamp,
    charger_by_id, route_by_vehicle, dict_of, insertMap, emptyMap, filter_step,
    sort_eligible, insertDesc, compute_urgency, vehA, vehB, chgA, chgB, rtA, rtB,
    base_expl]
  simp [insertMap, emptyMap, ignoradoExpl]

/-- Witness for C1: in the §8 demo snapshot (ample 100 kW budget, 25 kW
committed) the single input vehicle has an explanation entry. -/
theorem C1_witness :
    (make_plan 0 [demoVehicle] [demoCharger] [demoRoute] []
      (SiteConstraints.mk 100)).explanations demoVehicle.id ≠ none := by
  refine C1_explanations_complete 0 [demoVehicle] [demoCharger] [demoRoute] []
    (SiteConstraints.mk 100) demoVehicle (by simp) ?_
  norm_num [make_plan, plan_loop, plan_visit, plan_requested_kw, plan_final_kw,
    battery_friendly_kw, should_delay_charging, price_at, min_price_until, clamp,
    charger_by_id, route_by_vehicle, dict_of, insertMap, emptyMap, filter_step,
    sort_eligible, insertDesc, compute_urgency, demoVehicle, demoCharger, demoRoute,
    base_expl]

/-- C2 counterexample: with a site cap of -1 kW and no vehicles the command
sum is 0, which exceeds `site_max_kw + 0.01 = -0.99`. -/
theorem C2_counterexample :
    ¬ (((make_plan 0 [] [] [] [] (SiteConstraints.mk (-1))).commands.map
        ChargingCommand.set_kw).sum
      ≤ (SiteConstraints.mk (-1)).site_max_kw + 0.01) := by
  norm_num [make_plan, plan_loop, sort_eligible, emptyMap]

/-- Witness for C2 at the §8 demo snapshot with a 100 kW site cap. -/
theorem C2_witness :
    (0:ℚ) ≤ (SiteConstraints.mk 100).site_max_kw
    ∧ (((make_plan 0 [demoVehicle] [demoCharger] [demoRoute] []
        (SiteConstraints.mk 100)).commands.map ChargingCommand.set_kw).sum
      ≤ (SiteConstraints.mk 100).site_max_kw + 0.01) :=
  ⟨by norm_num,
    C2_budget_invariant 0 [demoVehicle] [demoCharger] [demoRoute] []
      (SiteConstraints.mk 100) (by norm_num)⟩

/-- Witness for C3: the 25 kW demo command resolves its charger "c1" and
respects its 50 kW limit. -/
theorem C3_witness :
    ∃ ch, charger_by_id [demoCharger]
        (ChargingCommand.mk "v1" "c1" 25 command_reason).charger_id = some ch
      ∧ (ChargingCommand.mk "v1" "c1" 25 command_reason).set_kw ≤ ch.max_kw := by
  refine C3_per_charger_invariant 0 [demoVehicle] [demoCharger] [demoRoute] []
    (SiteConstraints.mk 100) (ChargingCommand.mk "v1" "c1" 25 command_reason) ?_
  norm_num [make_plan, plan_loop, plan_visit, plan_requested_kw, plan_final_kw,
    battery_friendly_kw, should_delay_charging, price_at, min_price_until, clamp,
    charger_by_id, route_by_vehicle, dict_of, insertMap, emptyMap, filter_step,
    sort_eligible, insertDesc, compute_urgency, demoVehicle, demoCharger, demoRoute,
    base_expl]

/-- Witness for C6's stability clause at a concrete two-element list of
equal-urgency triples. -/
theorem C6_witness :
    List.Sublist [(demoVehicle, demoCharger, demoRoute), (demoVehicle, demoCharger, demoRoute)]
      (sort_eligible 0 [(demoVehicle, demoCharger, demoRoute), (demoVehicle, demoCharger, demoRoute)]) :=
  (C6_allocation_order 0 [(demoVehicle, demoCharger, demoRoute),
    (demoVehicle, demoCharger, demoRoute)]).2.2.1 _ _ rfl (List.Sublist.refl _)

/-- Witness for C7: the overdue route `rtPast` (started 10 minutes ago) with
a 0.5 deficit yields exactly one alert, no command and status "erro". -/
theorem C7_witness :
    (plan_visit 0 [] (SiteConstraints.mk 100)
        (PlanState.mk 100 [] [] emptyMap) (vehA, chgA, rtPast)).2 = false
    ∧ (plan_visit 0 [] (SiteConstraints.mk 100)
        (PlanState.mk 100 [] [] emptyMap) (vehA, chgA, rtPast)).1.remaining_kw
      = (PlanState.mk 100 [] [] emptyMap).remaining_kw
    ∧ (plan_visit 0 [] (SiteConstraints.mk 100)
        (PlanState.mk 100 [] [] emptyMap) (vehA, chgA, rtPast)).1.commands
      = (PlanState.mk 100 [] [] emptyMap).commands
    ∧ (plan_visit 0 [] (SiteConstraints.mk 100)
        (PlanState.mk 100 [] [] emptyMap) (vehA, chgA, rtPast)).1.alerts
      = (PlanState.mk 100 [] [] emptyMap).alerts ++ [overdue_alert vehA.id]
    ∧ ∃ e, (plan_visit 0 [] (SiteConstraints.mk 100)
        (PlanState.mk 100 [] [] emptyMap) (vehA, chgA, rtPast)).1.explanations vehA.id
          = some e ∧ e.status = "erro" :=
  C7_overdue_route 0 [] (SiteConstraints.mk 100) (PlanState.mk 100 [] [] emptyMap)
    vehA chgA rtPast (by norm_num [vehA, rtPast]) (by norm_num [rtPast])

/-- Witness for C8 at concrete inputs: empty prices give `none` lookups and
no deferral. -/
theorem C8_witness :
    price_at [] 0 = none
    ∧ min_price_until [] 0 3600 = none
    ∧ should_delay_charging none none 120 1 0.15 60 = false :=
  ⟨C8_empty_prices_safe.1 0, C8_empty_prices_safe.2.1 0 3600,
    C8_empty_prices_safe.2.2.1 none 120 1 0.15 60⟩

/-- Witness for C9: dropping the superseded route `rtOld` (same vehicle as
the later `rtA`) leaves the concrete plan unchanged. -/
theorem C9_witness :
    make_plan 0 [vehA] [chgA] ([rtB] ++ rtOld :: [rtA]) [] (SiteConstraints.mk 100)
      = make_plan 0 [vehA] [chgA] ([rtB] ++ [rtA]) [] (SiteConstraints.mk 100) :=
  C9_last_route_wins.1 0 [vehA] [chgA] [] (SiteConstraints.mk 100) [rtB] [rtA] rtOld
    ⟨rtA, by simp, by simp [rtA, rtOld]⟩

/-- Witness for C10: the demo plan's 25 kW command exceeds the 0.01 kW
threshold. -/
theorem C10_witness :
    (0.01:ℚ) < (ChargingCommand.mk "v1" "c1" 25 command_reason).set_kw := by
  refine C10_no_negligible_commands.1 0 [demoVehicle] [demoCharger] [demoRoute] []
    (SiteConstraints.mk 100) (ChargingCommand.mk "v1" "c1" 25 command_reason) ?_
  norm_num [make_plan, plan_loop, plan_visit, plan_requested_kw, plan_final_kw,
    battery_friendly_kw, should_delay_charging, price_at, min_price_until, clamp,
    charger_by_id, route_by_vehicle, dict_of, insertMap, emptyMap, filter_step,
    sort_eligible, insertDesc, compute_urgency, demoVehicle, demoCharger, demoRoute,
    base_expl]

end VoltWise
